import Mathlib

/-!
Verification of the p2p file-sharing core (`src/fileSharing.js` and its
driver `index.js`).

The `FileSharing` class keeps two JavaScript `Map`s: `sharedFiles`
(locally shared file records keyed by the generated `fileId`) and
`availableFiles` (remote announcements keyed by `fileId`).  Here those
maps are shallowly embedded as association lists with JS-`Map`
semantics: `set` overwrites the existing binding in place or appends a
new one at the end, `values()` lists the bindings in insertion order.

Asynchronous library calls (pub/sub `publish`, the `FileReader`, stream
sends) are embedded by passing their outcome explicitly as an
`Except`/`Option` parameter, so that every control path of the source,
including each `try`/`catch` arm, is a case of a total Lean function.
-/

set_option autoImplicit false

namespace FileSharing

/-- A locally shared file record, as built in `shareFile`
(`fileSharing.js`): fields `id`, `name`, `type`, `size`, `data`
(the data-URL produced by the `FileReader`), `timestamp`. -/
structure SharedFile where
  id : String
  name : String
  type : String
  size : Nat
  data : String
  timestamp : Nat
deriving DecidableEq, Repr

/-- The wire announcement built in `announceFile` and the
`availableFiles` record built in `handleFileAnnouncement`: both carry
exactly the fields `peerId`, `fileId`, `fileName`, `fileSize`,
`timestamp`. -/
structure Announcement where
  peerId : String
  fileId : String
  fileName : String
  fileSize : Nat
  timestamp : Nat
deriving DecidableEq, Repr

/-- The caller-supplied browser `File` object: `shareFile` reads its
`name`, `type` and `size`. -/
structure InputFile where
  name : String
  type : String
  size : Nat
deriving DecidableEq, Repr

/-- JS `Map.set`: overwrite the binding of `k` in place if present,
otherwise append it. -/
def mapSet {β : Type} (m : List (String × β)) (k : String) (v : β) :
    List (String × β) :=
  match m with
  | [] => [(k, v)]
  | (k₀, v₀) :: rest =>
    if k₀ = k then (k, v) :: rest else (k₀, v₀) :: mapSet rest k v

/-- JS `Map.get`: the value bound to `k`, if any. -/
def mapLookup {β : Type} (m : List (String × β)) (k : String) : Option β :=
  match m with
  | [] => none
  | (k₀, v₀) :: rest => if k₀ = k then some v₀ else mapLookup rest k

/-- JS `Map.delete`. -/
def mapDelete {β : Type} (m : List (String × β)) (k : String) :
    List (String × β) :=
  match m with
  | [] => []
  | (k₀, v₀) :: rest =>
    if k₀ = k then rest else (k₀, v₀) :: mapDelete rest k

/-- JS `Map.values()` in insertion order. -/
def mapValues {β : Type} (m : List (String × β)) : List β :=
  m.map Prod.snd

/-- Lookup through a possibly-`undefined` key, as in
`sharedFiles.has(fileId)` when the decoded request had no `fileId`
field: a JS `Map` never holds `undefined` as a key here, so the lookup
misses. -/
def mapLookupO {β : Type} (m : List (String × β)) : Option String → Option β
  | none => none
  | some k => mapLookup m k

/-- The mutable state of one `FileSharing` instance: the local peer id
(`this.libp2p.peerId.toString()`) and the two catalog tables. -/
structure FsState where
  selfPeerId : String
  sharedFiles : List (String × SharedFile)
  availableFiles : List (String × Announcement)
deriving DecidableEq, Repr

/-- `handleFileAnnouncement` (`fileSharing.js`): drop the announcement
when its `peerId` equals the local peer id, otherwise overwrite the
`availableFiles` binding for `fileId` and return the stored record. -/
def handleFileAnnouncement (st : FsState) (a : Announcement) :
    FsState × Option Announcement :=
  if a.peerId = st.selfPeerId then (st, none)
  else
    let fileInfo : Announcement :=
      { peerId := a.peerId, fileId := a.fileId, fileName := a.fileName,
        fileSize := a.fileSize, timestamp := a.timestamp }
    ({ st with availableFiles := mapSet st.availableFiles a.fileId fileInfo },
     some fileInfo)

/-- `announceFile` (`fileSharing.js`): build the announcement from the
shared record and the local peer id, publish it on the pub/sub topic
(`publish` is the awaited outcome of that library call: an exception
there propagates to the caller before the self-consumption step), then
feed the same announcement through `handleFileAnnouncement`. -/
def announceFile (st : FsState) (fileData : SharedFile) (now : Nat)
    (publish : Except String Unit) : FsState × Except String Unit :=
  let announcement : Announcement :=
    { peerId := st.selfPeerId, fileId := fileData.id,
      fileName := fileData.name, fileSize := fileData.size,
      timestamp := now }
  match publish with
  | .error e => (st, .error e)
  | .ok () => ((handleFileAnnouncement st announcement).1, .ok ())

/-- `shareFile` (`fileSharing.js`): `fileId` is the freshly generated
random id, `readOutcome` the `FileReader` result (a data-URL string, or
the reader error).  On a successful read the record is stored in
`sharedFiles` and then announced; an exception from `announceFile`
rejects the promise but the `sharedFiles.set` is not rolled back. -/
def shareFile (st : FsState) (file : InputFile) (fileId : String) (now : Nat)
    (readOutcome : Except String String) (publish : Except String Unit) :
    FsState × Except String String :=
  match readOutcome with
  | .error e => (st, .error e)
  | .ok dataUrl =>
    let fileData : SharedFile :=
      { id := fileId, name := file.name, type := file.type,
        size := file.size, data := dataUrl, timestamp := now }
    let st₁ := { st with sharedFiles := mapSet st.sharedFiles fileId fileData }
    match announceFile st₁ fileData now publish with
    | (st₂, .ok ()) => (st₂, .ok fileId)
    | (st₂, .error e) => (st₂, .error e)

/-- `getSharedFiles` (`fileSharing.js`): `Array.from(this.sharedFiles.values())`. -/
def getSharedFiles (st : FsState) : List SharedFile :=
  mapValues st.sharedFiles

/-- `getAvailableFiles` (`fileSharing.js`). -/
def getAvailableFiles (st : FsState) : List Announcement :=
  mapValues st.availableFiles

/-- `window.removeSharedFile` (`index.js`):
`fileSharing.sharedFiles.delete(fileId)`. -/
def removeSharedFile (st : FsState) (fileId : String) : FsState :=
  { st with sharedFiles := mapDelete st.sharedFiles fileId }

/-! ### Transfer responder (`setupProtocol`) -/

/-- The fields the responder destructures from the parsed request:
`const \x7b type, fileId \x7d = JSON.parse(data)`.  A field absent from
the decoded object is `undefined`, embedded as `none`. -/
structure RequestFields where
  type : Option String
  fileId : Option String
deriving DecidableEq, Repr

/-- A response the responder puts on the stream: either a full
`SharedFile` record or an object with a single `error` field. -/
inductive WireResponse where
  | file (f : SharedFile)
  | err (msg : String)
deriving DecidableEq, Repr

/-- The error text of the responder's not-found branch. -/
def notFoundMsg : String := "File not found or invalid request"

/-- The response the responder chooses for a decoded request:
`if (type === 'request' && this.sharedFiles.has(fileId))` send the
stored record, `else` send the not-found error object. -/
def respondToRequest (shared : List (String × SharedFile))
    (req : RequestFields) : WireResponse :=
  match mapLookupO shared req.fileId with
  | some fileData =>
    if req.type = some "request" then .file fileData else .err notFoundMsg
  | none => .err notFoundMsg

/-- Library-call outcomes for one run of the inbound-stream handler:
the read-and-decode pipe over `stream.source` (which throws on framing
or JSON errors), the `JSON.parse` step folded into it, and the outcome
of each successive `pipe(..., stream.sink)` attempt (`none` means the
send succeeded, `some e` that it threw `e`). -/
structure StreamEnv where
  readResult : Except String String
  parseResult : String → Except String RequestFields
  sendErr : Nat → Option String
deriving Inhabited

/-- What one run of the handler did: every response it attempted to
send in order, those sends that succeeded, and any exception escaping
the handler. -/
structure HandlerResult where
  attempts : List WireResponse
  sent : List WireResponse
  uncaught : Option String
deriving DecidableEq, Repr

/-- The catch-block path of the handler: attempt to send the
best-effort error object; a failure of that send is swallowed by the
inner `try`/`catch`. -/
def catchSend (env : StreamEnv) (idx : Nat) (e : String) : HandlerResult :=
  match env.sendErr idx with
  | none => { attempts := [.err e], sent := [.err e], uncaught := none }
  | some _ => { attempts := [.err e], sent := [], uncaught := none }

/-- One run of the inbound-stream handler registered by
`setupProtocol` (`fileSharing.js`): read and parse the framed request
inside the outer `try`; answer with the stored record or the not-found
error; on any exception, the outer `catch` attempts one best-effort
error response, itself guarded by an inner `try`/`catch`. -/
def runResponder (shared : List (String × SharedFile)) (env : StreamEnv) :
    HandlerResult :=
  match env.readResult with
  | .error e => catchSend env 0 e
  | .ok data =>
    match env.parseResult data with
    | .error e => catchSend env 0 e
    | .ok req =>
      let resp := respondToRequest shared req
      match env.sendErr 0 with
      | none => { attempts := [resp], sent := [resp], uncaught := none }
      | some e =>
        match env.sendErr 1 with
        | none =>
          { attempts := [resp, .err e], sent := [.err e], uncaught := none }
        | some _ =>
          { attempts := [resp, .err e], sent := [], uncaught := none }

/-! ### Transfer requester (`requestFile`) -/

/-- The decoded response object as `requestFile` sees it after
`JSON.parse`: every field may be absent, and nothing ties `id` to the
requested `fileId`. -/
structure RespObj where
  id : Option String
  name : Option String
  type : Option String
  size : Option Nat
  data : Option String
  timestamp : Option Nat
  error : Option String
deriving DecidableEq, Repr

/-- The JSON object a `WireResponse` is received as on the requester
side. -/
def wireToRespObj : WireResponse → RespObj
  | .file f =>
    { id := some f.id, name := some f.name, type := some f.type,
      size := some f.size, data := some f.data,
      timestamp := some f.timestamp, error := none }
  | .err m =>
    { id := none, name := none, type := none, size := none, data := none,
      timestamp := none, error := some m }

/-- The tail of `requestFile` (`fileSharing.js`): after decoding the
response, `if (response.error)` throw `Peer response error: ...`
(rethrown by the outer `catch` as `Failed to request file: ...`),
otherwise return the decoded object unchanged.  The JS condition is
truthiness of the `error` field: an absent field or an empty string is
falsy. -/
def requestFileHandleResponse (response : RespObj) : Except String RespObj :=
  match response.error with
  | some s =>
    if s = "" then .ok response
    else .error ("Failed to request file: Peer response error: " ++ s)
  | none => .ok response

/-! ### Invariants of the catalog tables -/

/-- The keys of a table, in order. -/
def mapKeys {β : Type} (m : List (String × β)) : List String :=
  m.map Prod.fst

/-- Every stored record's `id` field equals its key; `shareFile` is the
only writer of `sharedFiles` and always stores the record under its own
`id`. -/
def idConsistent (m : List (String × SharedFile)) : Prop :=
  ∀ p ∈ m, (Prod.snd p).id = p.1

instance idConsistent.decidable (m : List (String × SharedFile)) :
    Decidable (idConsistent m) :=
  List.decidableBAll _ m

/-- The record `shareFile` builds and stores for an input file, a
generated id, the reader's data-URL and the current time. -/
def storedRecord (file : InputFile) (fileId : String) (dataUrl : String)
    (now : Nat) : SharedFile :=
  { id := fileId, name := file.name, type := file.type, size := file.size,
    data := dataUrl, timestamp := now }

/-! ### Concrete sample values used in witnesses and counterexamples -/

/-- A concrete shared record under id `f1`. -/
def sampleStored : SharedFile :=
  { id := "f1", name := "a.txt", type := "text/plain", size := 3,
    data := "data:x", timestamp := 7 }

/-- A fresh instance state for peer `me`. -/
def emptyMeState : FsState :=
  { selfPeerId := "me", sharedFiles := [], availableFiles := [] }

/-- A first announcement of file `f`. -/
def annP1 : Announcement :=
  { peerId := "p1", fileId := "f", fileName := "old", fileSize := 1,
    timestamp := 10 }

/-- A second announcement of the same file `f` with different fields
and an older timestamp. -/
def annP2 : Announcement :=
  { peerId := "p2", fileId := "f", fileName := "new", fileSize := 2,
    timestamp := 5 }

/-- An announcement carrying the local peer's own id. -/
def annSelf : Announcement :=
  { peerId := "me", fileId := "f", fileName := "a", fileSize := 1,
    timestamp := 2 }

/-- A concrete shared record under id `f0`. -/
def sampleShared0 : SharedFile :=
  { id := "f0", name := "old.txt", type := "t", size := 9, data := "d0",
    timestamp := 1 }

/-- A state already sharing one file `f0`. -/
def oneFileState : FsState :=
  { selfPeerId := "me", sharedFiles := [("f0", sampleShared0)],
    availableFiles := [] }

/-- A concrete input file. -/
def inputA : InputFile :=
  { name := "a.txt", type := "text/plain", size := 1024 }

/-- A concrete shared record under id `abc`. -/
def oldAbc : SharedFile :=
  { id := "abc", name := "old.txt", type := "t", size := 1, data := "d1",
    timestamp := 1 }

/-- A state already sharing `abc`. -/
def abcState : FsState :=
  { selfPeerId := "me", sharedFiles := [("abc", oldAbc)],
    availableFiles := [] }

/-- A decoded response with no payload fields and the given `error`
field. -/
def bareResp (e : Option String) : RespObj :=
  { id := none, name := none, type := none, size := none, data := none,
    timestamp := none, error := e }

/-- A decoded response whose `id` matches no request and whose payload
fields are absent. -/
def mismatchedResp : RespObj :=
  { id := some "mismatched", name := none, type := none, size := none,
    data := none, timestamp := none, error := none }

/-- A handler run whose request read throws and whose sends succeed. -/
def badFrameEnv : StreamEnv :=
  { readResult := .error "bad frame",
    parseResult := fun _ => .error "unreachable",
    sendErr := fun _ => none }

/-! ### Wire codec

The wire messages travel as `JSON.stringify` output encoded to UTF-8
bytes (`TextEncoder` on the pub/sub path, `uint8ArrayFromString` on the
stream path), and the stream path additionally frames each message with
`it-length-prefixed`'s unsigned-varint length prefix.  The JSON layer is
embedded for the exact object shapes the code serializes, with
`JSON.stringify`'s string escaping; bytes are `Nat`s below 256. -/

/-- The opening brace character of a JSON object. -/
def lbrace : Char := Char.ofNat 123

/-- The closing brace character of a JSON object. -/
def rbrace : Char := Char.ofNat 125

/-- Lowercase hexadecimal digit, as `JSON.stringify` emits in `\u`
escapes. -/
def hexDigit (n : Nat) : Char :=
  if n < 10 then Char.ofNat (48 + n) else Char.ofNat (87 + n)

/-- The value of a hexadecimal digit accepted by `JSON.parse`. -/
def hexVal (c : Char) : Option Nat :=
  if 48 ≤ c.toNat ∧ c.toNat ≤ 57 then some (c.toNat - 48)
  else if 97 ≤ c.toNat ∧ c.toNat ≤ 102 then some (c.toNat - 87)
  else if 65 ≤ c.toNat ∧ c.toNat ≤ 70 then some (c.toNat - 55)
  else none

/-- One character of `JSON.stringify` string escaping: quote and
backslash get two-character escapes, the named control characters get
their short escapes, the remaining control characters get `\u00XX`, and
everything else is emitted verbatim. -/
def escChar (c : Char) : List Char :=
  if c = '"' then ['\\', '"']
  else if c = '\\' then ['\\', '\\']
  else if c = Char.ofNat 8 then ['\\', 'b']
  else if c = Char.ofNat 9 then ['\\', 't']
  else if c = Char.ofNat 10 then ['\\', 'n']
  else if c = Char.ofNat 12 then ['\\', 'f']
  else if c = Char.ofNat 13 then ['\\', 'r']
  else if c.toNat < 32 then
    ['\\', 'u', '0', '0', hexDigit (c.toNat / 16), hexDigit (c.toNat % 16)]
  else [c]

/-- `JSON.stringify` escaping over a whole string body. -/
def escString : List Char → List Char
  | [] => []
  | c :: cs => escChar c ++ escString cs

/-- The string-literal body scanner of `JSON.parse`: consume characters
up to an unescaped closing quote, decoding escapes; raw control
characters are rejected. -/
def parseStrBody : List Char → Option (List Char × List Char)
  | [] => none
  | c :: cs =>
    if c = '"' then some ([], cs)
    else if c = '\\' then
      match cs with
      | [] => none
      | e :: cs' =>
        if e = '"' then (parseStrBody cs').map (fun r => ('"' :: r.1, r.2))
        else if e = '\\' then
          (parseStrBody cs').map (fun r => ('\\' :: r.1, r.2))
        else if e = 'b' then
          (parseStrBody cs').map (fun r => (Char.ofNat 8 :: r.1, r.2))
        else if e = 't' then
          (parseStrBody cs').map (fun r => (Char.ofNat 9 :: r.1, r.2))
        else if e = 'n' then
          (parseStrBody cs').map (fun r => (Char.ofNat 10 :: r.1, r.2))
        else if e = 'f' then
          (parseStrBody cs').map (fun r => (Char.ofNat 12 :: r.1, r.2))
        else if e = 'r' then
          (parseStrBody cs').map (fun r => (Char.ofNat 13 :: r.1, r.2))
        else if e = 'u' then
          match cs' with
          | h₁ :: h₂ :: h₃ :: h₄ :: cs'' =>
            match hexVal h₁, hexVal h₂, hexVal h₃, hexVal h₄ with
            | some a, some b, some c', some d =>
              let n := ((a * 16 + b) * 16 + c') * 16 + d
              if n.isValidChar then
                (parseStrBody cs'').map (fun r => (Char.ofNat n :: r.1, r.2))
              else none
            | _, _, _, _ => none
          | _ => none
        else none
    else if c.toNat < 32 then none
    else (parseStrBody cs).map (fun r => (c :: r.1, r.2))

/-- A decimal digit character. -/
def digitChar (n : Nat) : Char := Char.ofNat (48 + n)

/-- The decimal digits of a natural number, most significant first, as
`JSON.stringify` prints integral numbers. -/
def natDigits (n : Nat) : List Char :=
  if n < 10 then [digitChar n]
  else natDigits (n / 10) ++ [digitChar (n % 10)]
termination_by n
decreasing_by exact Nat.div_lt_self (by omega) (by omega)

/-- The numeric value of a decimal digit character. -/
def digitVal (c : Char) : Nat := c.toNat - 48

/-- Accumulating decimal scanner: consume digits, stop at the first
non-digit. -/
def parseNatAux (acc : Nat) : List Char → Nat × List Char
  | [] => (acc, [])
  | c :: cs =>
    if c.isDigit then parseNatAux (acc * 10 + digitVal c) cs else (acc, c :: cs)

/-- The number scanner of `JSON.parse` restricted to the non-negative
integers this protocol serializes: at least one leading digit. -/
def parseNatCh : List Char → Option (Nat × List Char)
  | [] => none
  | c :: cs =>
    if c.isDigit then some (parseNatAux (digitVal c) cs) else none

/-- Fixed-text scanner: consume exactly `pat` or fail. -/
def expects : List Char → List Char → Option (List Char)
  | [], cs => some cs
  | _ :: _, [] => none
  | p :: ps, c :: cs => if c = p then expects ps cs else none

/-- A quoted, escaped JSON string literal. -/
def quoteStr (s : String) : List Char :=
  '"' :: (escString s.data ++ ['"'])

/-- The scanner for a quoted JSON string literal. -/
def parseQuoted : List Char → Option (List Char × List Char)
  | [] => none
  | c :: cs => if c = '"' then parseStrBody cs else none

/-- The key fragment `"key":` of a JSON object member. -/
def keyFrag (k : String) : List Char :=
  '"' :: (k.data ++ ['"', ':'])

/-- `JSON.stringify` of the announcement object built by
`announceFile`, with its exact member order `peerId`, `fileId`,
`fileName`, `fileSize`, `timestamp`. -/
def stringifyAnnouncement (a : Announcement) : List Char :=
  (lbrace :: keyFrag "peerId") ++
    (quoteStr a.peerId ++
      ((',' :: keyFrag "fileId") ++
        (quoteStr a.fileId ++
          ((',' :: keyFrag "fileName") ++
            (quoteStr a.fileName ++
              ((',' :: keyFrag "fileSize") ++
                (natDigits a.fileSize ++
                  ((',' :: keyFrag "timestamp") ++
                    (natDigits a.timestamp ++ [rbrace])))))))))

/-- `JSON.parse` for the announcement shape produced by
`stringifyAnnouncement`. -/
def parseAnnouncement (cs : List Char) : Option Announcement :=
  (expects (lbrace :: keyFrag "peerId") cs).bind fun cs =>
  (parseQuoted cs).bind fun p₁ =>
  (expects (',' :: keyFrag "fileId") p₁.2).bind fun cs =>
  (parseQuoted cs).bind fun p₂ =>
  (expects (',' :: keyFrag "fileName") p₂.2).bind fun cs =>
  (parseQuoted cs).bind fun p₃ =>
  (expects (',' :: keyFrag "fileSize") p₃.2).bind fun cs =>
  (parseNatCh cs).bind fun n₁ =>
  (expects (',' :: keyFrag "timestamp") n₁.2).bind fun cs =>
  (parseNatCh cs).bind fun n₂ =>
  (expects [rbrace] n₂.2).bind fun cs =>
  match cs with
  | [] => some (Announcement.mk (String.mk p₁.1) (String.mk p₂.1)
      (String.mk p₃.1) n₁.1 n₂.1)
  | _ => none

/-- The request message `requestFile` serializes:
`JSON.stringify` of an object with `type` fixed to `request` and the
requested `fileId`. -/
structure RequestMsg where
  fileId : String
deriving DecidableEq, Repr

/-- `JSON.stringify` of the request object, member order `type`,
`fileId`. -/
def stringifyRequest (r : RequestMsg) : List Char :=
  (lbrace :: keyFrag "type") ++
    (quoteStr "request" ++
      ((',' :: keyFrag "fileId") ++ (quoteStr r.fileId ++ [rbrace])))

/-- `JSON.parse` for the request shape produced by
`stringifyRequest`. -/
def parseRequestMsg (cs : List Char) : Option RequestMsg :=
  (expects (lbrace :: keyFrag "type") cs).bind fun cs =>
  (expects (quoteStr "request") cs).bind fun cs =>
  (expects (',' :: keyFrag "fileId") cs).bind fun cs =>
  (parseQuoted cs).bind fun p₁ =>
  (expects [rbrace] p₁.2).bind fun cs =>
  match cs with
  | [] => some (RequestMsg.mk (String.mk p₁.1))
  | _ => none

/-- `JSON.stringify` of a responder reply: either the full shared
record (member order `id`, `name`, `type`, `size`, `data`,
`timestamp`) or the single-member error object. -/
def stringifyResponse : WireResponse → List Char
  | .file f =>
    (lbrace :: keyFrag "id") ++
      (quoteStr f.id ++
        ((',' :: keyFrag "name") ++
          (quoteStr f.name ++
            ((',' :: keyFrag "type") ++
              (quoteStr f.type ++
                ((',' :: keyFrag "size") ++
                  (natDigits f.size ++
                    ((',' :: keyFrag "data") ++
                      (quoteStr f.data ++
                        ((',' :: keyFrag "timestamp") ++
                          (natDigits f.timestamp ++ [rbrace])))))))))))
  | .err m => (lbrace :: keyFrag "error") ++ (quoteStr m ++ [rbrace])

/-- `JSON.parse` for the shared-record reply shape. -/
def parseFileResp (cs : List Char) : Option SharedFile :=
  (expects (lbrace :: keyFrag "id") cs).bind fun cs =>
  (parseQuoted cs).bind fun p₁ =>
  (expects (',' :: keyFrag "name") p₁.2).bind fun cs =>
  (parseQuoted cs).bind fun p₂ =>
  (expects (',' :: keyFrag "type") p₂.2).bind fun cs =>
  (parseQuoted cs).bind fun p₃ =>
  (expects (',' :: keyFrag "size") p₃.2).bind fun cs =>
  (parseNatCh cs).bind fun n₁ =>
  (expects (',' :: keyFrag "data") n₁.2).bind fun cs =>
  (parseQuoted cs).bind fun p₄ =>
  (expects (',' :: keyFrag "timestamp") p₄.2).bind fun cs =>
  (parseNatCh cs).bind fun n₂ =>
  (expects [rbrace] n₂.2).bind fun cs =>
  match cs with
  | [] => some (SharedFile.mk (String.mk p₁.1) (String.mk p₂.1)
      (String.mk p₃.1) n₁.1 (String.mk p₄.1) n₂.1)
  | _ => none

/-- `JSON.parse` for the error reply shape. -/
def parseErrResp (cs : List Char) : Option String :=
  (expects (lbrace :: keyFrag "error") cs).bind fun cs =>
  (parseQuoted cs).bind fun p₁ =>
  (expects [rbrace] p₁.2).bind fun cs =>
  match cs with
  | [] => some (String.mk p₁.1)
  | _ => none

/-- Decoding a reply: a record if the record shape parses, otherwise an
error object. -/
def parseResponse (cs : List Char) : Option WireResponse :=
  match parseFileResp cs with
  | some f => some (.file f)
  | none =>
    match parseErrResp cs with
    | some m => some (.err m)
    | none => none

/-- UTF-8 encoding of one scalar value. -/
def utf8EncodeChar (c : Char) : List Nat :=
  let n := c.toNat
  if n < 128 then [n]
  else if n < 2048 then [192 + n / 64, 128 + n % 64]
  else if n < 65536 then [224 + n / 4096, 128 + n / 64 % 64, 128 + n % 64]
  else [240 + n / 262144, 128 + n / 4096 % 64, 128 + n / 64 % 64,
    128 + n % 64]

/-- UTF-8 encoding of a character sequence (`TextEncoder.encode`,
`uint8ArrayFromString`). -/
def utf8Encode : List Char → List Nat
  | [] => []
  | c :: cs => utf8EncodeChar c ++ utf8Encode cs

/-- Classify a UTF-8 lead byte: the number of continuation bytes it
announces and the value bits it carries. -/
def utf8Lead (b : Nat) : Option (Nat × Nat) :=
  if b < 128 then some (0, b)
  else if b < 192 then none
  else if b < 224 then some (1, b - 192)
  else if b < 240 then some (2, b - 224)
  else if b < 248 then some (3, b - 240)
  else none

/-- Consume `k` continuation bytes, accumulating six value bits from
each. -/
def utf8More : Nat → Nat → List Nat → Option (Nat × List Nat)
  | 0, acc, bs => some (acc, bs)
  | _ + 1, _, [] => none
  | k + 1, acc, b :: bs =>
    if 128 ≤ b ∧ b < 192 then utf8More k (acc * 64 + (b - 128)) bs else none

/-- The smallest scalar value a sequence of the given length may
encode; anything below is an overlong encoding. -/
def utf8Min : Nat → Nat
  | 0 => 0
  | 1 => 128
  | 2 => 2048
  | _ => 65536

/-- UTF-8 decoding, fuelled by the number of remaining characters;
truncated, overlong and out-of-range sequences are rejected. -/
def utf8DecodeAux : Nat → List Nat → Option (List Char)
  | _, [] => some []
  | 0, _ :: _ => none
  | fuel + 1, b :: bs =>
    match utf8Lead b with
    | none => none
    | some (k, acc) =>
      match utf8More k acc bs with
      | none => none
      | some (n, rest) =>
        if utf8Min k ≤ n ∧ n.isValidChar then
          (utf8DecodeAux fuel rest).map (fun cs => Char.ofNat n :: cs)
        else none

/-- UTF-8 decoding (`TextDecoder.decode`, `uint8ArrayToString`); a
byte list never decodes to more characters than it has bytes, so the
byte count is sufficient fuel. -/
def utf8Decode (bs : List Nat) : Option (List Char) :=
  utf8DecodeAux bs.length bs

/-- Unsigned-varint encoding of a length, as `it-length-prefixed`
writes it: low seven bits first, continuation bit on every byte with a
successor. -/
def varintEncode (n : Nat) : List Nat :=
  if n < 128 then [n] else (128 + n % 128) :: varintEncode (n / 128)
termination_by n
decreasing_by exact Nat.div_lt_self (by omega) (by omega)

/-- Unsigned-varint decoding. -/
def varintDecode : List Nat → Option (Nat × List Nat)
  | [] => none
  | b :: bs =>
    if b < 128 then some (b, bs)
    else
      match varintDecode bs with
      | some (m, r) => some ((b - 128) + 128 * m, r)
      | none => none

/-- `it-length-prefixed` framing: varint byte length, then the
payload. -/
def lpEncode (payload : List Nat) : List Nat :=
  varintEncode payload.length ++ payload

/-- `it-length-prefixed` deframing of one message: read the varint
length, then exactly that many payload bytes. -/
def lpDecode (bs : List Nat) : Option (List Nat × List Nat) :=
  match varintDecode bs with
  | some (len, rest) =>
    if len ≤ rest.length then some (rest.take len, rest.drop len) else none
  | none => none

/-- The pub/sub publish path of `announceFile`:
`TextEncoder().encode(JSON.stringify(announcement))`. -/
def encodeAnnouncementBytes (a : Announcement) : List Nat :=
  utf8Encode (stringifyAnnouncement a)

/-- The pub/sub receive path of the message listener (`index.js`):
`JSON.parse(new TextDecoder().decode(bytes))`. -/
def decodeAnnouncementBytes (bs : List Nat) : Option Announcement :=
  match utf8Decode bs with
  | some cs => parseAnnouncement cs
  | none => none

/-- The request send path of `requestFile`: stringify, UTF-8 encode,
length-prefix. -/
def encodeRequestFrame (r : RequestMsg) : List Nat :=
  lpEncode (utf8Encode (stringifyRequest r))

/-- The responder's request receive path: deframe one message, decode
UTF-8, `JSON.parse`. -/
def decodeRequestFrame (bs : List Nat) : Option RequestMsg :=
  match lpDecode bs with
  | some (payload, _) =>
    match utf8Decode payload with
    | some cs => parseRequestMsg cs
    | none => none
  | none => none

/-- The responder's reply send path: stringify, UTF-8 encode,
length-prefix. -/
def encodeResponseFrame (w : WireResponse) : List Nat :=
  lpEncode (utf8Encode (stringifyResponse w))

/-- The requester's reply receive path: deframe one message, decode
UTF-8, `JSON.parse`. -/
def decodeResponseFrame (bs : List Nat) : Option WireResponse :=
  match lpDecode bs with
  | some (payload, _) =>
    match utf8Decode payload with
    | some cs => parseResponse cs
    | none => none
  | none => none

end FileSharing

namespace FileSharing

/-! ### Lemmas about the JS-Map embedding -/

theorem mapLookup_mapSet_self {β : Type} (m : List (String × β))
    (k : String) (v : β) : mapLookup (mapSet m k v) k = some v := by
  induction m with
  | nil => simp [mapSet, mapLookup]
  | cons p rest ih =>
    obtain ⟨k₀, v₀⟩ := p
    by_cases h : k₀ = k
    · simp [mapSet, h, mapLookup]
    · simp [mapSet, h, mapLookup, ih]

theorem mapLookup_mapSet_ne {β : Type} (m : List (String × β))
    (k k' : String) (v : β) (h : k' ≠ k) :
    mapLookup (mapSet m k v) k' = mapLookup m k' := by
  induction m with
  | nil => simp [mapSet, mapLookup, Ne.symm h]
  | cons p rest ih =>
    obtain ⟨k₀, v₀⟩ := p
    by_cases hk : k₀ = k
    · subst hk
      simp [mapSet, mapLookup, Ne.symm h]
    · simp [mapSet, hk, mapLookup, ih]

theorem mapKeys_mapSet {β : Type} (m : List (String × β)) (k : String)
    (v : β) :
    mapKeys (mapSet m k v) =
      if k ∈ mapKeys m then mapKeys m else mapKeys m ++ [k] := by
  induction m with
  | nil => simp [mapSet, mapKeys]
  | cons p rest ih =>
    obtain ⟨k₀, v₀⟩ := p
    by_cases h : k₀ = k
    · subst h
      simp [mapSet, mapKeys, List.mem_cons]
    · simp only [mapSet, if_neg h, mapKeys, List.map_cons, List.mem_cons,
        Ne.symm h, false_or] at ih ⊢
      by_cases hm : k ∈ List.map Prod.fst rest
      · simp only [hm, if_true] at ih ⊢
        rw [ih]
      · simp only [hm, if_false] at ih ⊢
        rw [ih]
        simp

theorem mapKeys_mapSet_nodup {β : Type} (m : List (String × β))
    (k : String) (v : β) (h : (mapKeys m).Nodup) :
    (mapKeys (mapSet m k v)).Nodup := by
  rw [mapKeys_mapSet]
  by_cases hm : k ∈ mapKeys m
  · simpa [hm] using h
  · simp only [hm, if_false]
    exact (List.nodup_append.2 ⟨h, List.nodup_singleton k,
      by simpa [List.Disjoint] using fun a ha hk => hm (by simpa [hk] using ha)⟩)

theorem filter_key_eq_nil {β : Type} (m : List (String × β)) (k : String)
    (h : k ∉ mapKeys m) :
    m.filter (fun p => p.1 = k) = [] := by
  induction m with
  | nil => simp
  | cons p rest ih =>
    obtain ⟨k₀, v₀⟩ := p
    simp only [mapKeys, List.map_cons, List.mem_cons, not_or] at h
    simp [List.filter, Ne.symm h.1, ih (by simpa [mapKeys] using h.2)]

theorem filter_mapSet {β : Type} (m : List (String × β)) (k : String)
    (v : β) (h : (mapKeys m).Nodup) :
    (mapSet m k v).filter (fun p => p.1 = k) = [(k, v)] := by
  induction m with
  | nil => simp [mapSet]
  | cons p rest ih =>
    obtain ⟨k₀, v₀⟩ := p
    simp only [mapKeys, List.map_cons, List.nodup_cons] at h
    by_cases hk : k₀ = k
    · subst hk
      simp [mapSet, List.filter,
        filter_key_eq_nil rest k₀ (by simpa [mapKeys] using h.1)]
    · simp [mapSet, hk, List.filter, ih (by simpa [mapKeys] using h.2)]

theorem mapLookup_eq_none_of_not_mem {β : Type} (m : List (String × β))
    (k : String) (h : k ∉ mapKeys m) : mapLookup m k = none := by
  induction m with
  | nil => simp [mapLookup]
  | cons p rest ih =>
    obtain ⟨k₀, v₀⟩ := p
    simp only [mapKeys, List.map_cons, List.mem_cons, not_or] at h
    simp [mapLookup, Ne.symm h.1, ih (by simpa [mapKeys] using h.2)]

theorem mapLookup_mapDelete_self {β : Type} (m : List (String × β))
    (k : String) (h : (mapKeys m).Nodup) :
    mapLookup (mapDelete m k) k = none := by
  induction m with
  | nil => simp [mapDelete, mapLookup]
  | cons p rest ih =>
    obtain ⟨k₀, v₀⟩ := p
    simp only [mapKeys, List.map_cons, List.nodup_cons] at h
    by_cases hk : k₀ = k
    · subst hk
      simp only [mapDelete, if_pos rfl]
      exact mapLookup_eq_none_of_not_mem rest k₀ (by simpa [mapKeys] using h.1)
    · simp [mapDelete, hk, mapLookup, ih (by simpa [mapKeys] using h.2)]

theorem idConsistent_mapSet (m : List (String × SharedFile)) (k : String)
    (v : SharedFile) (hC : idConsistent m) (hv : v.id = k) :
    idConsistent (mapSet m k v) := by
  induction m with
  | nil =>
    intro p hp
    simp only [mapSet, List.mem_singleton] at hp
    simp [hp, hv]
  | cons q rest ih =>
    obtain ⟨k₀, v₀⟩ := q
    have hC₀ : v₀.id = k₀ := hC (k₀, v₀) (List.mem_cons_self _ _)
    have hCr : idConsistent rest := fun p hp => hC p (List.mem_cons_of_mem _ hp)
    by_cases hk : k₀ = k
    · intro p hp
      simp only [mapSet, if_pos hk, List.mem_cons] at hp
      rcases hp with hp | hp
      · simp [hp, hv]
      · exact hCr p hp
    · intro p hp
      simp only [mapSet, if_neg hk, List.mem_cons] at hp
      rcases hp with hp | hp
      · simp [hp, hC₀]
      · exact ih hCr p hp

theorem mapValues_filter_id (l : List (String × SharedFile)) (k : String)
    (hC : idConsistent l) :
    (mapValues l).filter (fun f => f.id = k) =
      mapValues (l.filter (fun p => p.1 = k)) := by
  induction l with
  | nil => simp [mapValues]
  | cons p rest ih =>
    obtain ⟨k₀, v₀⟩ := p
    have hC₀ : v₀.id = k₀ := hC (k₀, v₀) (List.mem_cons_self _ _)
    have hCr : idConsistent rest := fun q hq => hC q (List.mem_cons_of_mem _ hq)
    by_cases hk : k₀ = k
    · simp [mapValues, List.filter, hC₀, hk]
      simpa [mapValues] using ih hCr
    · simp [mapValues, List.filter, hC₀, hk]
      simpa [mapValues] using ih hCr

theorem mapLookup_mapDelete_ne {β : Type} (m : List (String × β))
    (k k' : String) (h : k' ≠ k) :
    mapLookup (mapDelete m k) k' = mapLookup m k' := by
  induction m with
  | nil => simp [mapDelete]
  | cons p rest ih =>
    obtain ⟨k₀, v₀⟩ := p
    by_cases hk : k₀ = k
    · subst hk
      simp [mapDelete, mapLookup, Ne.symm h]
    · simp [mapDelete, hk, mapLookup, ih]

/-! ### Claim theorems -/

/-- Claim C1: for every inbound stream on the transfer-responder
protocol, if the decoded request does not have type `request` or its
`fileId` is absent from the shared-files table, the responder answers
with the structured not-found error object, and at the requester that
response always surfaces as an error result, never a normal return. -/
theorem absent_fileId_yields_not_found (shared : List (String × SharedFile))
    (req : RequestFields)
    (h : req.type ≠ some "request" ∨ mapLookupO shared req.fileId = none) :
    respondToRequest shared req = .err notFoundMsg ∧
      requestFileHandleResponse (wireToRespObj (respondToRequest shared req)) =
        .error ("Failed to request file: Peer response error: " ++
          notFoundMsg) := by
  have hresp : respondToRequest shared req = .err notFoundMsg := by
    unfold respondToRequest
    rcases hl : mapLookupO shared req.fileId with _ | fd
    · rfl
    · rcases h with h | h
      · simp [h]
      · simp [hl] at h
  refine ⟨hresp, ?_⟩
  rw [hresp]
  simp [wireToRespObj, requestFileHandleResponse, notFoundMsg]

/-- Witness for C1: a concrete request for a `fileId` not in the
table. -/
theorem absent_fileId_yields_not_found_witness :
    respondToRequest [("f1", sampleStored)]
        { type := some "request", fileId := some "nope" } =
      .err notFoundMsg ∧
    requestFileHandleResponse (wireToRespObj (respondToRequest
        [("f1", sampleStored)]
        { type := some "request", fileId := some "nope" })) =
      .error ("Failed to request file: Peer response error: " ++
        notFoundMsg) :=
  absent_fileId_yields_not_found _ _ (Or.inr (by decide))

/-- Counterexample for C2: a decoded response that carries an `error`
field whose value is the empty string is falsy in JS, so `requestFile`
returns it normally instead of failing, although it does carry an
`error` field. -/
theorem error_field_empty_string_returns_normally :
    ((bareResp (some "")).error).isSome = true ∧
      requestFileHandleResponse (bareResp (some "")) =
        .ok (bareResp (some "")) := by
  constructor
  · rfl
  · rfl

/-- Claim C2 (amended): if the decoded response carries an `error`
field with a non-empty (truthy) string value, `requestFile` fails with
an error carrying that message; if it carries no `error` field, the
record is returned to the caller. -/
theorem requestFile_error_field_dispatch (resp : RespObj) (s : String) :
    (resp.error = some s → s ≠ "" →
      requestFileHandleResponse resp =
        .error ("Failed to request file: Peer response error: " ++ s)) ∧
    (resp.error = none → requestFileHandleResponse resp = .ok resp) := by
  constructor
  · intro he hs
    simp [requestFileHandleResponse, he, hs]
  · intro he
    simp [requestFileHandleResponse, he]

/-- Witness for C2 (amended): both arms at concrete responses. -/
theorem requestFile_error_field_dispatch_witness :
    requestFileHandleResponse (bareResp (some "boom")) =
      .error "Failed to request file: Peer response error: boom" ∧
    requestFileHandleResponse mismatchedResp = .ok mismatchedResp :=
  ⟨(requestFile_error_field_dispatch (bareResp (some "boom")) "boom").1
      rfl (by decide),
   (requestFile_error_field_dispatch mismatchedResp "").2 rfl⟩

/-- Claim C3: an announcement whose `peerId` equals the local peer id
is a no-op on the state, and the self-consumption call made by
`announceFile` never adds an available-file record either: the whole
state is returned unchanged by that call. -/
theorem self_announcement_is_noop (st : FsState) (a : Announcement)
    (fd : SharedFile) (now : Nat) (publish : Except String Unit)
    (h : a.peerId = st.selfPeerId) :
    handleFileAnnouncement st a = (st, none) ∧
      (announceFile st fd now publish).1 = st := by
  constructor
  · simp [handleFileAnnouncement, h]
  · rcases publish with e | _
    · rfl
    · simp [announceFile, handleFileAnnouncement]

/-- Witness for C3 at a concrete state and announcement. -/
theorem self_announcement_is_noop_witness :
    handleFileAnnouncement emptyMeState annSelf = (emptyMeState, none) ∧
      (announceFile emptyMeState sampleStored 3 (.ok ())).1 = emptyMeState :=
  self_announcement_is_noop _ _ _ 3 (.ok ()) rfl

/-- Claim C4: processing two non-self announcements for the same
`fileId` in order leaves exactly one available-file record for that
`fileId`, carrying the fields of the one processed last. -/
theorem available_last_write_wins (st : FsState) (a₁ a₂ : Announcement)
    (h₁ : a₁.peerId ≠ st.selfPeerId) (h₂ : a₂.peerId ≠ st.selfPeerId)
    (hf : a₁.fileId = a₂.fileId)
    (hN : (mapKeys st.availableFiles).Nodup) :
    ((handleFileAnnouncement
        (handleFileAnnouncement st a₁).1 a₂).1.availableFiles.filter
        (fun p => p.1 = a₂.fileId)) = [(a₂.fileId, a₂)] ∧
    mapLookup
        (handleFileAnnouncement
          (handleFileAnnouncement st a₁).1 a₂).1.availableFiles a₂.fileId =
      some a₂ := by
  have hN₁ : (mapKeys (mapSet st.availableFiles a₁.fileId a₁)).Nodup :=
    mapKeys_mapSet_nodup _ _ _ hN
  simp only [handleFileAnnouncement, if_neg h₁, if_neg h₂]
  exact ⟨filter_mapSet _ _ _ hN₁, mapLookup_mapSet_self _ _ _⟩

/-- Witness for C4: two concrete announcements for the same file id. -/
theorem available_last_write_wins_witness :
    ((handleFileAnnouncement
        (handleFileAnnouncement emptyMeState annP1).1 annP2).1.availableFiles.filter
        (fun p => p.1 = annP2.fileId)) = [(annP2.fileId, annP2)] ∧
    mapLookup
        (handleFileAnnouncement
          (handleFileAnnouncement emptyMeState annP1).1 annP2).1.availableFiles
        annP2.fileId =
      some annP2 :=
  available_last_write_wins emptyMeState annP1 annP2 (by decide) (by decide)
    rfl (by decide)

/-- Claim C5: after a `shareFile` that resolves with `fileId`, the
shared-files listing contains exactly one entry whose `id` is that
`fileId`, and its `name` and `size` are those of the input file. -/
theorem shareFile_listing_exactly_one (st : FsState) (file : InputFile)
    (fileId : String) (now : Nat) (dataUrl : String)
    (hC : idConsistent st.sharedFiles)
    (hN : (mapKeys st.sharedFiles).Nodup) :
    (shareFile st file fileId now (.ok dataUrl) (.ok ())).2 = .ok fileId ∧
    (getSharedFiles
        (shareFile st file fileId now (.ok dataUrl) (.ok ())).1).filter
        (fun f => f.id = fileId) = [storedRecord file fileId dataUrl now] ∧
    (storedRecord file fileId dataUrl now).name = file.name ∧
    (storedRecord file fileId dataUrl now).size = file.size := by
  have hstate : (shareFile st file fileId now
      (.ok dataUrl) (.ok ())).1.sharedFiles =
      mapSet st.sharedFiles fileId (storedRecord file fileId dataUrl now) := by
    simp [shareFile, announceFile, handleFileAnnouncement, storedRecord]
  refine ⟨?_, ?_, rfl, rfl⟩
  · simp [shareFile, announceFile, handleFileAnnouncement]
  · unfold getSharedFiles
    rw [hstate]
    rw [mapValues_filter_id
      (mapSet st.sharedFiles fileId (storedRecord file fileId dataUrl now))
      fileId
      (idConsistent_mapSet st.sharedFiles fileId
        (storedRecord file fileId dataUrl now) hC rfl)]
    rw [filter_mapSet _ _ _ hN]
    rfl

/-- Witness for C5: sharing into a concrete non-empty table. -/
theorem shareFile_listing_exactly_one_witness :
    (shareFile oneFileState inputA "f1" 42 (.ok "data:url") (.ok ())).2 =
      .ok "f1" ∧
    (getSharedFiles
        (shareFile oneFileState inputA "f1" 42
          (.ok "data:url") (.ok ())).1).filter
        (fun f => f.id = "f1") = [storedRecord inputA "f1" "data:url" 42] ∧
    (storedRecord inputA "f1" "data:url" 42).name = inputA.name ∧
    (storedRecord inputA "f1" "data:url" 42).size = inputA.size :=
  shareFile_listing_exactly_one oneFileState inputA "f1" 42 "data:url"
    (by decide) (by decide)

/-- Claim C6: every exception inside the inbound-stream handler is
caught, the handler still attempts a best-effort error response on each
failure path, and no exception escapes the handler. -/
theorem responder_swallows_all_failures (shared : List (String × SharedFile))
    (env : StreamEnv) :
    (runResponder shared env).uncaught = none ∧
    (∀ e, env.readResult = .error e →
      (runResponder shared env).attempts = [.err e]) ∧
    (∀ d e, env.readResult = .ok d → env.parseResult d = .error e →
      (runResponder shared env).attempts = [.err e]) ∧
    (∀ d req e, env.readResult = .ok d → env.parseResult d = .ok req →
      env.sendErr 0 = some e →
      (runResponder shared env).attempts =
        [respondToRequest shared req, .err e]) ∧
    (∀ d req, env.readResult = .ok d → env.parseResult d = .ok req →
      env.sendErr 0 = none →
      (runResponder shared env).attempts = [respondToRequest shared req]) := by
  refine ⟨?_, ?_, ?_, ?_, ?_⟩
  · rcases hr : env.readResult with e | d
    · rcases h0 : env.sendErr 0 with _ | e' <;>
        simp [runResponder, catchSend, hr, h0]
    · rcases hp : env.parseResult d with e | req
      · rcases h0 : env.sendErr 0 with _ | e' <;>
          simp [runResponder, catchSend, hr, hp, h0]
      · rcases h0 : env.sendErr 0 with _ | e'
        · simp [runResponder, hr, hp, h0]
        · rcases h1 : env.sendErr 1 with _ | e'' <;>
            simp [runResponder, hr, hp, h0, h1]
  · intro e he
    rcases h0 : env.sendErr 0 with _ | e' <;>
      simp [runResponder, catchSend, he, h0]
  · intro d e hd hp
    rcases h0 : env.sendErr 0 with _ | e' <;>
      simp [runResponder, catchSend, hd, hp, h0]
  · intro d req e hd hp h0
    rcases h1 : env.sendErr 1 with _ | e'' <;>
      simp [runResponder, hd, hp, h0, h1]
  · intro d req hd hp h0
    simp [runResponder, hd, hp, h0]

/-- Witness for C6: a concrete run in which reading the request
throws. -/
theorem responder_swallows_all_failures_witness :
    (runResponder [] badFrameEnv).uncaught = none ∧
    (runResponder [] badFrameEnv).attempts = [.err "bad frame"] :=
  ⟨(responder_swallows_all_failures [] badFrameEnv).1,
   (responder_swallows_all_failures [] badFrameEnv).2.1 "bad frame" rfl⟩

/-- Claim C7: when the pub/sub publish inside `announceFile` throws,
`shareFile` rejects with that error, yet the record stored by the
preceding `sharedFiles.set` stays in the table. -/
theorem publish_failure_keeps_shared_entry (st : FsState) (file : InputFile)
    (fileId : String) (now : Nat) (dataUrl : String) (e : String) :
    mapLookup
        (shareFile st file fileId now (.ok dataUrl) (.error e)).1.sharedFiles
        fileId =
      some (storedRecord file fileId dataUrl now) ∧
    (shareFile st file fileId now (.ok dataUrl) (.error e)).2 = .error e := by
  constructor
  · simp only [shareFile, announceFile, storedRecord]
    exact mapLookup_mapSet_self _ _ _
  · simp [shareFile, announceFile]

/-- Counterexample for C8: `shareFile` does not guard against the
freshly generated id colliding with an existing one; when the generated
id equals the key of an existing entry, that entry is displaced. -/
theorem shareFile_collision_displaces_entry :
    oldAbc ∈ getSharedFiles abcState ∧
    oldAbc ∉
      getSharedFiles
        (shareFile abcState { name := "new.txt", type := "t", size := 2 }
          "abc" 9 (.ok "d2") (.ok ())).1 := by
  constructor
  · decide
  · decide

/-- Claim C8 (amended): ids stay unique (a `shareFile` preserves
nodup keys); no operation other than `shareFile` and `removeSharedFile`
touches the shared-files table; a `shareFile` whose generated id is
fresh displaces no existing entry; `removeSharedFile` removes exactly
its argument. -/
theorem shared_table_lifecycle (st : FsState) (a : Announcement)
    (fd : SharedFile) (now : Nat) (publish : Except String Unit)
    (file : InputFile) (fileId : String) (dataUrl : String) (k : String)
    (v : SharedFile) (hN : (mapKeys st.sharedFiles).Nodup) :
    (handleFileAnnouncement st a).1.sharedFiles = st.sharedFiles ∧
    (announceFile st fd now publish).1.sharedFiles = st.sharedFiles ∧
    (mapKeys
      (shareFile st file fileId now
        (.ok dataUrl) publish).1.sharedFiles).Nodup ∧
    (mapLookup st.sharedFiles fileId = none →
      mapLookup st.sharedFiles k = some v →
      mapLookup
          (shareFile st file fileId now
            (.ok dataUrl) publish).1.sharedFiles k =
        some v) ∧
    mapLookup (removeSharedFile st fileId).sharedFiles fileId = none ∧
    (k ≠ fileId →
      mapLookup (removeSharedFile st fileId).sharedFiles k =
        mapLookup st.sharedFiles k) := by
  have hshared : (shareFile st file fileId now
      (.ok dataUrl) publish).1.sharedFiles =
      mapSet st.sharedFiles fileId (storedRecord file fileId dataUrl now) := by
    rcases publish with e | _ <;>
      simp [shareFile, announceFile, handleFileAnnouncement, storedRecord]
  refine ⟨?_, ?_, ?_, ?_, ?_, ?_⟩
  · unfold handleFileAnnouncement
    by_cases h : a.peerId = st.selfPeerId <;> simp [h]
  · rcases publish with e | _
    · rfl
    · simp [announceFile, handleFileAnnouncement]
  · rw [hshared]
    exact mapKeys_mapSet_nodup _ _ _ hN
  · intro hfresh hk
    rw [hshared]
    rw [mapLookup_mapSet_ne]
    · exact hk
    · intro hkk
      rw [hkk, hfresh] at hk
      cases hk
  · exact mapLookup_mapDelete_self _ _ hN
  · intro hkk
    exact mapLookup_mapDelete_ne _ _ _ hkk

/-- Witness for C8 (amended) at a concrete state. -/
theorem shared_table_lifecycle_witness :
    mapLookup
        (shareFile oneFileState { name := "b", type := "t", size := 2 }
          "f1" 9 (.ok "d2") (.ok ())).1.sharedFiles "f0" =
      some sampleShared0 ∧
    mapLookup (removeSharedFile oneFileState "f0").sharedFiles "f0" = none :=
  ⟨(shared_table_lifecycle oneFileState annP1 sampleStored 9 (.ok ())
      { name := "b", type := "t", size := 2 } "f1" "d2" "f0" sampleShared0
      (by decide)).2.2.2.1 (by decide) (by decide),
   (shared_table_lifecycle oneFileState annP1 sampleStored 9 (.ok ())
      { name := "b", type := "t", size := 2 } "f0" "d2" "f0" sampleShared0
      (by decide)).2.2.2.2.1⟩

/-- Claim C10: `requestFile` passes any decoded response without an
`error` field through to the caller unchanged, with no validation of
the `id`, `name`, `size` or `data` fields against the request. -/
theorem requestFile_passes_through_unvalidated (resp : RespObj)
    (h : resp.error = none) :
    requestFileHandleResponse resp = .ok resp := by
  simp [requestFileHandleResponse, h]

/-- Witness for C10: a response whose `id` matches no request and whose
payload fields are absent is still returned as success. -/
theorem requestFile_passes_through_unvalidated_witness :
    requestFileHandleResponse mismatchedResp = .ok mismatchedResp :=
  requestFile_passes_through_unvalidated mismatchedResp rfl

end FileSharing

namespace FileSharing

/-! ### Codec round-trip lemmas -/

theorem hexVal_hexDigit (n : Nat) (h : n < 16) : hexVal (hexDigit n) = some n := by
  interval_cases n <;> decide

theorem parseStrBody_escChar (c : Char) (tail : List Char) :
    parseStrBody (escChar c ++ tail) =
      (parseStrBody tail).map (fun r => (c :: r.1, r.2)) := by
  by_cases h1 : c = '"'
  · subst h1
    rw [show escChar '"' = ['\\', '"'] from rfl]
    rw [parseStrBody.eq_def]
    simp
  by_cases h2 : c = '\\'
  · subst h2
    rw [show escChar '\\' = ['\\', '\\'] from rfl]
    rw [parseStrBody.eq_def]
    simp
  by_cases h3 : c = Char.ofNat 8
  · subst h3
    rw [show escChar (Char.ofNat 8) = ['\\', 'b'] from rfl]
    rw [parseStrBody.eq_def]
    simp
  by_cases h4 : c = Char.ofNat 9
  · subst h4
    rw [show escChar (Char.ofNat 9) = ['\\', 't'] from rfl]
    rw [parseStrBody.eq_def]
    simp
  by_cases h5 : c = Char.ofNat 10
  · subst h5
    rw [show escChar (Char.ofNat 10) = ['\\', 'n'] from rfl]
    rw [parseStrBody.eq_def]
    simp
  by_cases h6 : c = Char.ofNat 12
  · subst h6
    rw [show escChar (Char.ofNat 12) = ['\\', 'f'] from rfl]
    rw [parseStrBody.eq_def]
    simp
  by_cases h7 : c = Char.ofNat 13
  · subst h7
    rw [show escChar (Char.ofNat 13) = ['\\', 'r'] from rfl]
    rw [parseStrBody.eq_def]
    simp
  by_cases h8 : c.toNat < 32
  · have hesc : escChar c =
        ['\\', 'u', '0', '0', hexDigit (c.toNat / 16),
          hexDigit (c.toNat % 16)] := by
      simp [escChar, h1, h2, h3, h4, h5, h6, h7, h8]
    rw [hesc]
    have e₀ : hexVal '0' = some 0 := rfl
    have e₃ := hexVal_hexDigit (c.toNat / 16) (by omega)
    have e₄ := hexVal_hexDigit (c.toNat % 16) (by omega)
    have hv : (Char.toNat c).isValidChar := c.valid
    have hn : c.toNat / 16 * 16 + c.toNat % 16 = c.toNat := by omega
    rw [parseStrBody.eq_def]
    simp
    rw [e₀, e₃, e₄]
    simp [hn, hv, Char.ofNat_toNat]
  · have hesc : escChar c = [c] := by
      simp [escChar, h1, h2, h3, h4, h5, h6, h7, h8]
    rw [hesc]
    rw [parseStrBody.eq_def]
    simp [h1, h2, h8]

theorem parseStrBody_escString (s : List Char) (rest : List Char) :
    parseStrBody (escString s ++ ('"' :: rest)) = some (s, rest) := by
  induction s with
  | nil =>
    rw [escString]
    rw [parseStrBody.eq_def]
    simp
  | cons c cs ih =>
    rw [escString, List.append_assoc, parseStrBody_escChar, ih]
    rfl

theorem digitChar_isDigit (n : Nat) (h : n < 10) :
    (digitChar n).isDigit = true := by
  interval_cases n <;> decide

theorem digitVal_digitChar (n : Nat) (h : n < 10) :
    digitVal (digitChar n) = n := by
  interval_cases n <;> decide

theorem natDigits_all_digits (n : Nat) :
    ∀ c ∈ natDigits n, c.isDigit = true := by
  induction n using Nat.strong_induction_on with
  | _ n ih =>
    rw [natDigits.eq_def]
    by_cases h : n < 10
    · simp only [h, if_true, List.mem_singleton]
      intro c hc
      subst hc
      exact digitChar_isDigit n h
    · simp only [h, if_false, List.mem_append, List.mem_singleton]
      intro c hc
      rcases hc with hc | hc
      · exact ih (n / 10) (Nat.div_lt_self (by omega) (by omega)) c hc
      · subst hc
        exact digitChar_isDigit (n % 10) (by omega)

theorem natDigits_ne_nil (n : Nat) : natDigits n ≠ [] := by
  rw [natDigits.eq_def]
  by_cases h : n < 10 <;> simp [h]

theorem foldl_natDigits (n : Nat) : ∀ acc : Nat,
    List.foldl (fun a c => a * 10 + digitVal c) acc (natDigits n) =
      acc * 10 ^ (natDigits n).length + n := by
  induction n using Nat.strong_induction_on with
  | _ n ih =>
    intro acc
    rw [natDigits.eq_def]
    by_cases h : n < 10
    · simp [h, digitVal_digitChar n h]
    · simp only [h, if_false, List.foldl_append, List.length_append,
        List.foldl_cons, List.foldl_nil, List.length_cons, List.length_nil]
      rw [ih (n / 10) (Nat.div_lt_self (by omega) (by omega)) acc]
      rw [digitVal_digitChar (n % 10) (by omega)]
      have hdm : n / 10 * 10 + n % 10 = n := by omega
      calc (acc * 10 ^ (natDigits (n / 10)).length + n / 10) * 10 + n % 10
          = acc * (10 ^ (natDigits (n / 10)).length * 10) +
            (n / 10 * 10 + n % 10) := by ring
        _ = acc * 10 ^ ((natDigits (n / 10)).length + 1) + n := by
            rw [pow_succ, hdm]

theorem parseNatAux_digits_append (ds : List Char)
    (h : ∀ c ∈ ds, c.isDigit = true) (acc : Nat) (t : List Char) :
    parseNatAux acc (ds ++ t) =
      parseNatAux (List.foldl (fun a c => a * 10 + digitVal c) acc ds) t := by
  induction ds generalizing acc with
  | nil => simp
  | cons d ds ih =>
    simp only [List.cons_append, parseNatAux, h d (List.mem_cons_self _ _),
      if_true, List.foldl_cons]
    exact ih (fun c hc => h c (List.mem_cons_of_mem _ hc)) _

theorem parseNatAux_stop (acc : Nat) (t : List Char)
    (ht : ∀ c cs, t = c :: cs → c.isDigit = false) :
    parseNatAux acc t = (acc, t) := by
  cases t with
  | nil => rfl
  | cons c cs => simp [parseNatAux, ht c cs rfl]

theorem parseNatCh_natDigits (n : Nat) (t : List Char)
    (ht : ∀ c cs, t = c :: cs → c.isDigit = false) :
    parseNatCh (natDigits n ++ t) = some (n, t) := by
  obtain ⟨d, ds, hds⟩ : ∃ d ds, natDigits n = d :: ds := by
    cases hnd : natDigits n with
    | nil => exact absurd hnd (natDigits_ne_nil n)
    | cons d ds => exact ⟨d, ds, rfl⟩
  have hall := natDigits_all_digits n
  have hfold := foldl_natDigits n 0
  rw [hds] at hall hfold ⊢
  have hd : d.isDigit = true := hall d (List.mem_cons_self _ _)
  simp only [List.cons_append, parseNatCh, hd, if_true]
  rw [parseNatAux_digits_append ds
    (fun c hc => hall c (List.mem_cons_of_mem _ hc)) _ t]
  rw [parseNatAux_stop _ t ht]
  simp only [List.foldl_cons] at hfold
  have hz : (0 : Nat) * 10 + digitVal d = digitVal d := by omega
  rw [hz] at hfold
  rw [hfold]
  simp

theorem varintDecode_encode (n : Nat) (t : List Nat) :
    varintDecode (varintEncode n ++ t) = some (n, t) := by
  induction n using Nat.strong_induction_on with
  | _ n ih =>
    rw [varintEncode.eq_def]
    by_cases h : n < 128
    · simp [varintDecode, h]
    · simp only [h, if_false, List.cons_append]
      simp only [varintDecode]
      rw [ih (n / 128) (Nat.div_lt_self (by omega) (by omega))]
      rw [if_neg (by omega : ¬(128 + n % 128 < 128))]
      simp only [Option.some.injEq, Prod.mk.injEq]
      exact ⟨by omega, trivial⟩

theorem lpDecode_encode (p t : List Nat) :
    lpDecode (lpEncode p ++ t) = some (p, t) := by
  unfold lpEncode lpDecode
  rw [List.append_assoc, varintDecode_encode]
  simp [List.take_left, List.drop_left]

theorem utf8DecodeAux_encodeChar (c : Char) (bs : List Nat) (fuel : Nat) :
    utf8DecodeAux (fuel + 1) (utf8EncodeChar c ++ bs) =
      (utf8DecodeAux fuel bs).map (fun cs => c :: cs) := by
  have hv : (Char.toNat c).isValidChar := c.valid
  have hlt : c.toNat < 1114112 := by
    rcases hv with h | h
    · omega
    · omega
  rw [utf8EncodeChar]
  by_cases h1 : c.toNat < 128
  · simp only [h1, if_true, List.cons_append, List.nil_append]
    rw [utf8DecodeAux]
    rw [show utf8Lead c.toNat = some (0, c.toNat) from by
      rw [utf8Lead, if_pos h1]]
    simp only [utf8More]
    rw [if_pos ⟨by simp [utf8Min], hv⟩]
    rw [Char.ofNat_toNat]
  by_cases h2 : c.toNat < 2048
  · simp only [h1, h2, if_false, if_true, List.cons_append, List.nil_append]
    rw [utf8DecodeAux]
    rw [show utf8Lead (192 + c.toNat / 64) = some (1, 192 + c.toNat / 64 - 192)
      from by rw [utf8Lead, if_neg (by omega), if_neg (by omega),
        if_pos (by omega)]]
    simp only [utf8More]
    rw [if_pos (by refine ⟨by omega, by omega⟩)]
    have hn : (192 + c.toNat / 64 - 192) * 64 + (128 + c.toNat % 64 - 128) =
        c.toNat := by omega
    rw [hn]
    dsimp only
    rw [if_pos ⟨by simp only [utf8Min]; omega, hv⟩]
    rw [Char.ofNat_toNat]
  by_cases h3 : c.toNat < 65536
  · simp only [h1, h2, h3, if_false, if_true, List.cons_append,
      List.nil_append]
    rw [utf8DecodeAux]
    rw [show utf8Lead (224 + c.toNat / 4096) =
        some (2, 224 + c.toNat / 4096 - 224) from by
      rw [utf8Lead, if_neg (by omega), if_neg (by omega), if_neg (by omega),
        if_pos (by omega)]]
    simp only [utf8More]
    rw [if_pos (by refine ⟨by omega, by omega⟩)]
    rw [if_pos (by refine ⟨by omega, by omega⟩)]
    have hn : ((224 + c.toNat / 4096 - 224) * 64 +
        (128 + c.toNat / 64 % 64 - 128)) * 64 + (128 + c.toNat % 64 - 128) =
        c.toNat := by omega
    rw [hn]
    dsimp only
    rw [if_pos ⟨by simp only [utf8Min]; omega, hv⟩]
    rw [Char.ofNat_toNat]
  · simp only [h1, h2, h3, if_false, List.cons_append, List.nil_append]
    rw [utf8DecodeAux]
    rw [show utf8Lead (240 + c.toNat / 262144) =
        some (3, 240 + c.toNat / 262144 - 240) from by
      rw [utf8Lead, if_neg (by omega), if_neg (by omega), if_neg (by omega),
        if_neg (by omega), if_pos (by omega)]]
    simp only [utf8More]
    rw [if_pos (by refine ⟨by omega, by omega⟩)]
    rw [if_pos (by refine ⟨by omega, by omega⟩)]
    rw [if_pos (by refine ⟨by omega, by omega⟩)]
    have hn : (((240 + c.toNat / 262144 - 240) * 64 +
        (128 + c.toNat / 4096 % 64 - 128)) * 64 +
        (128 + c.toNat / 64 % 64 - 128)) * 64 + (128 + c.toNat % 64 - 128) =
        c.toNat := by omega
    rw [hn]
    dsimp only
    rw [if_pos ⟨by simp only [utf8Min]; omega, hv⟩]
    rw [Char.ofNat_toNat]

theorem utf8DecodeAux_encode (s : List Char) :
    ∀ fuel, s.length ≤ fuel → utf8DecodeAux fuel (utf8Encode s) = some s := by
  induction s with
  | nil =>
    intro fuel _
    cases fuel <;> rfl
  | cons c cs ih =>
    intro fuel hf
    obtain ⟨f', rfl⟩ : ∃ f', fuel = f' + 1 :=
      ⟨fuel - 1, by simp at hf; omega⟩
    rw [utf8Encode, utf8DecodeAux_encodeChar]
    rw [ih f' (by simp at hf; omega)]
    rfl

theorem utf8Encode_length_ge (s : List Char) :
    s.length ≤ (utf8Encode s).length := by
  induction s with
  | nil => simp [utf8Encode]
  | cons c cs ih =>
    rw [utf8Encode]
    have h1 : 1 ≤ (utf8EncodeChar c).length := by
      rw [utf8EncodeChar]
      split_ifs <;> simp
    simp only [List.length_append, List.length_cons]
    omega

theorem utf8Decode_encode (s : List Char) :
    utf8Decode (utf8Encode s) = some s :=
  utf8DecodeAux_encode s _ (utf8Encode_length_ge s)

theorem expects_append (pat rest : List Char) :
    expects pat (pat ++ rest) = some rest := by
  induction pat with
  | nil => rfl
  | cons p ps ih => simp [expects, ih]

theorem expects_self (pat : List Char) : expects pat pat = some [] := by
  simpa using expects_append pat []

theorem expects_lead (k : String) (rest : List Char) :
    expects (lbrace :: keyFrag k) (lbrace :: (keyFrag k ++ rest)) =
      some rest := by
  simp only [expects, if_pos rfl]
  exact expects_append (keyFrag k) rest

theorem expects_comma (k : String) (rest : List Char) :
    expects (',' :: keyFrag k) (',' :: (keyFrag k ++ rest)) = some rest := by
  simp only [expects, if_pos rfl]
  exact expects_append (keyFrag k) rest

theorem parseQuoted_quoteStr (s : String) (t : List Char) :
    parseQuoted (quoteStr s ++ t) = some (s.data, t) := by
  rw [quoteStr]
  simp only [List.cons_append, List.append_assoc, List.singleton_append]
  simp only [parseQuoted, if_true, List.nil_append]
  exact parseStrBody_escString s.data t

theorem parseNatCh_natDigits_comma (n : Nat) (t : List Char) :
    parseNatCh (natDigits n ++ (',' :: t)) = some (n, ',' :: t) := by
  refine parseNatCh_natDigits n _ ?_
  intro c cs h
  cases h
  decide

theorem parseNatCh_natDigits_rbrace (n : Nat) :
    parseNatCh (natDigits n ++ [rbrace]) = some (n, [rbrace]) := by
  refine parseNatCh_natDigits n _ ?_
  intro c cs h
  cases h
  decide

theorem parseAnnouncement_stringify (a : Announcement) :
    parseAnnouncement (stringifyAnnouncement a) = some a := by
  rw [stringifyAnnouncement, parseAnnouncement]
  simp only [List.cons_append, List.append_assoc]
  simp only [expects_lead, expects_comma, Option.some_bind,
    parseQuoted_quoteStr, parseNatCh_natDigits_comma,
    parseNatCh_natDigits_rbrace, expects_self]

theorem parseRequestMsg_stringify (r : RequestMsg) :
    parseRequestMsg (stringifyRequest r) = some r := by
  rw [stringifyRequest, parseRequestMsg]
  simp only [List.cons_append, List.append_assoc]
  simp only [expects_lead, expects_comma, expects_append, Option.some_bind,
    parseQuoted_quoteStr, expects_self]

theorem parseFileResp_stringify (f : SharedFile) :
    parseFileResp (stringifyResponse (.file f)) = some f := by
  rw [stringifyResponse, parseFileResp]
  simp only [List.cons_append, List.append_assoc]
  simp only [expects_lead, expects_comma, Option.some_bind,
    parseQuoted_quoteStr, parseNatCh_natDigits_comma,
    parseNatCh_natDigits_rbrace, expects_self]

theorem parseFileResp_err (m : String) :
    parseFileResp (stringifyResponse (.err m)) = none := rfl

theorem parseErrResp_stringify (m : String) :
    parseErrResp (stringifyResponse (.err m)) = some m := by
  rw [stringifyResponse, parseErrResp]
  simp only [List.cons_append, List.append_assoc]
  simp only [expects_lead, Option.some_bind, parseQuoted_quoteStr,
    expects_self]

theorem parseResponse_stringify (w : WireResponse) :
    parseResponse (stringifyResponse w) = some w := by
  cases w with
  | file f =>
    rw [parseResponse, parseFileResp_stringify]
  | err m =>
    rw [parseResponse, parseFileResp_err, parseErrResp_stringify]

/-- The pub/sub byte path composes: UTF-8 then the announcement
parse. -/
theorem decodeAnnouncementBytes_encode (a : Announcement) :
    decodeAnnouncementBytes (encodeAnnouncementBytes a) = some a := by
  rw [encodeAnnouncementBytes, decodeAnnouncementBytes, utf8Decode_encode]
  exact parseAnnouncement_stringify a

/-- The request frame path composes: deframe, UTF-8, request parse. -/
theorem decodeRequestFrame_encode (r : RequestMsg) :
    decodeRequestFrame (encodeRequestFrame r) = some r := by
  rw [encodeRequestFrame, decodeRequestFrame]
  have h := lpDecode_encode (utf8Encode (stringifyRequest r)) []
  rw [List.append_nil] at h
  rw [h]
  dsimp only
  rw [utf8Decode_encode]
  exact parseRequestMsg_stringify r

/-- The response frame path composes: deframe, UTF-8, response
parse. -/
theorem decodeResponseFrame_encode (w : WireResponse) :
    decodeResponseFrame (encodeResponseFrame w) = some w := by
  rw [encodeResponseFrame, decodeResponseFrame]
  have h := lpDecode_encode (utf8Encode (stringifyResponse w)) []
  rw [List.append_nil] at h
  rw [h]
  dsimp only
  rw [utf8Decode_encode]
  exact parseResponse_stringify w

/-- Claim C9: serializing any Announcement, Request or Response to
bytes (JSON stringify plus UTF-8 encoding, with the unsigned-varint
length-prefix framing on the stream path) and deserializing those
bytes yields the original value. -/
theorem wire_roundtrip (a : Announcement) (r : RequestMsg)
    (w : WireResponse) :
    decodeAnnouncementBytes (encodeAnnouncementBytes a) = some a ∧
    decodeRequestFrame (encodeRequestFrame r) = some r ∧
    decodeResponseFrame (encodeResponseFrame w) = some w :=
  ⟨decodeAnnouncementBytes_encode a, decodeRequestFrame_encode r,
   decodeResponseFrame_encode w⟩

end FileSharing
